import Mathlib

/-!
Verification of the adaptive sampling engine of the `criterion` micro-benchmark
harness (`include/benchmark/benchmark.hpp`).  The C++ code is shallowly
embedded: durations are exact rationals (the code casts integer nanosecond
counts to `long double`), the warm-up estimator and iteration planner are pure
functions of the observed durations, and the sampling loop in the `benchmark`
constructor is a state-passing function parametrised by the behaviour of the
callable under test (its per-round latency estimate, per-round sample
statistics, and whether a given call throws).
-/

namespace Criterion

/-- The pair of tuning constants chosen by the iteration planner:
`num_iterations_` (iterations per measurement round) and `max_num_runs_`
(the round budget), as set by `update_iterations`. -/
structure Policy where
  iterations : ℕ
  maxRuns : ℕ
deriving DecidableEq, Repr

/-- The iteration planner `update_iterations` (benchmark.hpp lines 44-72),
with the warm-up estimate `e` (in nanoseconds) passed as an argument.  The
cascade of `if`/`else if` on the estimate picks the latency bucket. -/
def update_iterations (e : ℚ) : Policy :=
  if e < 100 then ⟨128000, 10000⟩
  else if e < 1000 then ⟨64000, 5000⟩
  else if e < 1000000 then ⟨32000, 1000⟩
  else if e < 1000000000 then ⟨4000, 100⟩
  else ⟨1000, 10⟩

/-- `warmup_runs` in `estimate_execution_time`. -/
def warmup_runs : ℕ := 10

/-- The warm-up estimator `estimate_execution_time` (benchmark.hpp lines
22-42), with `d i` the duration of the `i`-th warm-up call of the callable.
The accumulator is `none` while `first_run` is true; the first call stores its
duration into `result`, and every later call takes `std::min` with the
accumulated result.  The `getD 0` default is unreachable since
`warmup_runs = 10 > 0`. -/
def estimate_execution_time (d : ℕ → ℚ) : ℚ :=
  ((List.range warmup_runs).foldl
    (fun acc i =>
      match acc with
      | none => some (d i)
      | some r => some (min (d i) r)) none).getD 0

/-- Spec-side definition, following the spec's words for the Warm-up
Estimator: "discard the first call's result as baseline-setting, and return
the minimum observed duration across the remaining calls" — the minimum of
the durations of calls 1 through 9, the first call excluded.  Used only to
compare against `estimate_execution_time` as embedded from the source. -/
def spec_warmup_min (d : ℕ → ℚ) : ℚ :=
  ((List.range 8).map (fun i => d (i + 2))).foldl min (d 1)

/-- Round mean (benchmark.hpp line 134): the sum of the round's durations
divided by the sample count. -/
def mean (ds : List ℚ) : ℚ := ds.sum / ds.length

/-- The accumulator `E` (benchmark.hpp lines 136-139): the sum of squared
deviations of the durations from the round mean. -/
def sqDevSum (ds : List ℚ) : ℚ := (ds.map (fun d => (d - mean ds) ^ 2)).sum

/-- Round variance (benchmark.hpp line 140): `E / size`, the population
estimator (divide by the sample count `N`, not `N - 1`). -/
def variance (ds : List ℚ) : ℚ := sqDevSum ds / ds.length

/-- Round standard deviation (benchmark.hpp line 141): `sqrt(variance)`. -/
noncomputable def standard_deviation (ds : List ℚ) : ℝ :=
  Real.sqrt (variance ds)

/-- Round relative standard deviation (benchmark.hpp line 142):
`standard_deviation * 100 / mean`, with no guard on `mean`. -/
noncomputable def relative_standard_deviation (ds : List ℚ) : ℝ :=
  standard_deviation ds * 100 / (mean ds : ℝ)

/-- The RSD expression of benchmark.hpp line 142 with its single division
instrumented: the code computes `standard_deviation * 100 / mean` with no
zero check, so the instrumented version returns `none` exactly when that
division's divisor is zero (the C++ `long double` division then yields
NaN/inf), and otherwise the quotient the code computes. -/
noncomputable def rsd_checked (ds : List ℚ) : Option ℝ :=
  if mean ds = 0 then none
  else some (standard_deviation ds * 100 / (mean ds : ℝ))

/-- The convergence record of the `benchmark` constructor (benchmark.hpp
lines 98-100): `lowest_rsd` (initialised to the sentinel `100`),
`num_iterations_lowest_rsd` (initialised to `0`) and `mean_lowest_rsd`
(initialised to `0`). -/
structure ConvState where
  lowest_rsd : ℚ
  num_iterations_lowest_rsd : ℕ
  mean_lowest_rsd : ℚ
deriving DecidableEq, Repr

/-- One "Save record of lowest RSD" step (benchmark.hpp lines 144-150):
`lowest_rsd = min(relative_standard_deviation, lowest_rsd)`, and the round's
iteration count and mean are stored only when the new `lowest_rsd` is
strictly below the previous one. -/
def stepConv (s : ConvState) (rsd m : ℚ) (iters : ℕ) : ConvState :=
  let current_lowest_rsd := s.lowest_rsd
  let lowest := min rsd current_lowest_rsd
  if lowest < current_lowest_rsd then ⟨lowest, iters, m⟩
  else ⟨lowest, s.num_iterations_lowest_rsd, s.mean_lowest_rsd⟩

/-- The convergence record after a sequence of rounds, each supplying its
RSD, mean and iteration count. -/
def runConv (s : ConvState) (l : List (ℚ × ℚ × ℕ)) : ConvState :=
  l.foldl (fun s x => stepConv s x.1 x.2.1 x.2.2) s

/-- The observable effect of one iteration of the sampling loop on the
callable under test: either some call of the callable throws during this
round (in the planner's warm-up runs or in the measurement runs — either way
before the round's statistics are reduced), or the round completes and its
sample reduces to the given mean and relative standard deviation. -/
inductive RoundEffect where
  | throws
  | ok (m rsd : ℚ)
deriving DecidableEq, Repr

/-- Whether the round completes without the callable throwing. -/
def RoundEffect.isOk : RoundEffect → Bool
  | .throws => false
  | .ok _ _ => true

/-- The behaviour of one callable across a whole `benchmark` constructor
execution: whether the pre-loop `update_iterations` call (line 96, before the
cursor is hidden) throws, the warm-up estimate `est r` that
`estimate_execution_time` returns inside the `update_iterations` call at the
top of loop iteration `r` (line 121), and what happens in the rest of loop
iteration `r`.  Loop iterations are indexed by the value of `num_runs`, which
is `r` during iteration `r` (it starts at 0 and is incremented once at the
end of every non-final iteration).  The sampling loop consumes a round's
sample only through its computed mean and RSD (lines 134-150, verified
against the source formulas separately above), so those are the round inputs
here. -/
structure Behavior where
  initThrows : Bool
  est : ℕ → ℚ
  round : ℕ → RoundEffect

/-- The fields of the final record produced by the sampling loop at
termination, plus two instrumentation fields not stored by the source:
`rounds_measured` counts the loop iterations that executed the measurement
phase, and `policyTrace` lists, in order, the `(num_iterations_,
max_num_runs_)` pair set by the `update_iterations` call of each loop
iteration. -/
structure BenchResult where
  num_runs : ℕ
  num_iterations : ℕ
  lowest_rsd : ℚ
  mean_lowest_rsd : ℚ
  num_iterations_lowest_rsd : ℕ
  rounds_measured : ℕ
  policyTrace : List (ℕ × ℕ)
deriving DecidableEq, Repr

/-- What the `benchmark` constructor leaves behind: `result` is `some` of
the final record on normal completion and `none` when the callable's
exception propagates out of the constructor, and `cursorHidden` is the
console-cursor state after the constructor exits (the code hides the cursor
at line 108 before the loop and shows it at line 174 after the loop, with no
scope guard). -/
structure Outcome where
  result : Option BenchResult
  cursorHidden : Bool
deriving DecidableEq, Repr

/-- The `while (true)` sampling loop (benchmark.hpp lines 119-171), as a
fuel-indexed function; `none` means the fuel ran out (shown below to be
impossible with the fuel used by `benchmark_run`).  Each iteration re-invokes
`update_iterations` (line 121), measures and reduces the round (modelled by
`b.round num_runs`), updates the lowest-RSD record, and breaks when
`num_runs >= max_num_runs_` (line 164); otherwise it increments `num_runs`
and repeats.  If the callable throws, the exception propagates with the
cursor still hidden. -/
def loop (b : Behavior) : ℕ → ℕ → ConvState → ℕ → List (ℕ × ℕ) →
    Option Outcome
  | 0, _, _, _, _ => none
  | fuel + 1, num_runs, conv, meas, trace =>
    match b.round num_runs with
    | .throws => some ⟨none, true⟩
    | .ok m rsd =>
      let p := update_iterations (b.est num_runs)
      let conv' := stepConv conv rsd m p.iterations
      let meas' := meas + 1
      let trace' := trace ++ [(p.iterations, p.maxRuns)]
      if p.maxRuns ≤ num_runs then
        some ⟨some ⟨num_runs, p.iterations, conv'.lowest_rsd,
          conv'.mean_lowest_rsd, conv'.num_iterations_lowest_rsd,
          meas', trace'⟩, false⟩
      else
        loop b fuel (num_runs + 1) conv' meas' trace'

/-- `lowest_rsd = 100`, `num_iterations_lowest_rsd = 0`,
`mean_lowest_rsd = 0` (benchmark.hpp lines 98-100). -/
def initConv : ConvState := ⟨100, 0, 0⟩

/-- Fuel for the sampling loop; 10002 iterations can never be reached since
every bucket's `max_num_runs_` is at most 10000. -/
def FUEL : ℕ := 10002

/-- The whole `benchmark` constructor (benchmark.hpp lines 93-175): the
pre-loop `update_iterations` call (its policy values are overwritten by the
call at the top of the first loop iteration before any measurement, so only
a throw there is observable — and it happens before the cursor is hidden),
then the cursor is hidden and the sampling loop runs with `num_runs = 0` and
the sentinel convergence record, then the cursor is shown again. -/
def benchmark_run (b : Behavior) : Option Outcome :=
  if b.initThrows then some ⟨none, false⟩
  else loop b FUEL 0 initConv 0 []

/-- The final record of a run, when the run completes normally. -/
def runResult (b : Behavior) : Option BenchResult :=
  (benchmark_run b).bind Outcome.result

/-- A warm-up duration sequence whose first call is the fastest: call 0
takes 1ns, every later call takes 5ns. -/
def dEx : ℕ → ℚ := fun i => if i = 0 then 1 else 5

/-- A callable that never throws, always estimates 2s (the unbounded bucket,
policy `(1000, 10)`), and whose every round reduces to mean 5 and RSD 0. -/
def c1Behavior : Behavior := ⟨false, fun _ => 2000000000, fun _ => .ok 5 0⟩

/-- A callable whose estimate is below 100ns at the first loop round and 2s
at every later round, so the planner's bucket changes between loop rounds 0
and 1; every round completes with mean 5 and RSD 0. -/
def c8Behavior : Behavior :=
  ⟨false, fun r => if r = 0 then 0 else 2000000000, fun _ => .ok 5 0⟩

/-- A callable that throws during the first loop round, after the cursor has
been hidden. -/
def c7Behavior : Behavior := ⟨false, fun _ => 0, fun _ => .throws⟩

/-- A callable that never throws, always estimates 2s, and whose every round
reduces to mean 5 and RSD 150% — never beating the 100% sentinel. -/
def c10Behavior : Behavior :=
  ⟨false, fun _ => 2000000000, fun _ => .ok 5 150⟩

/-- The step of benchmark.hpp lines 144-150 in closed form: the record is
replaced exactly when the round's RSD is strictly below the stored one, and
is untouched otherwise (in particular on ties). -/
lemma stepConv_eq (s : ConvState) (rsd m : ℚ) (iters : ℕ) :
    stepConv s rsd m iters =
      if rsd < s.lowest_rsd then ⟨rsd, iters, m⟩ else s := by
  unfold stepConv
  by_cases h : rsd < s.lowest_rsd
  · rw [if_pos h, if_pos]
    · rw [min_eq_left h.le]
    · rw [min_eq_left h.le]; exact h
  · rw [if_neg h, if_neg]
    · rw [min_eq_right (not_lt.1 h)]
    · rw [min_eq_right (not_lt.1 h)]; exact lt_irrefl _

/-- One convergence step never increases the stored lowest RSD. -/
lemma stepConv_lowest_le (s : ConvState) (rsd m : ℚ) (iters : ℕ) :
    (stepConv s rsd m iters).lowest_rsd ≤ s.lowest_rsd := by
  rw [stepConv_eq]
  by_cases h : rsd < s.lowest_rsd
  · rw [if_pos h]; exact h.le
  · rw [if_neg h]

/-- Folding convergence steps over any round sequence never increases the
stored lowest RSD. -/
lemma runConv_lowest_le (s : ConvState) (l : List (ℚ × ℚ × ℕ)) :
    (runConv s l).lowest_rsd ≤ s.lowest_rsd := by
  induction l generalizing s with
  | nil => exact le_rfl
  | cons x xs ih =>
    exact le_trans (ih (stepConv s x.1 x.2.1 x.2.2))
      (stepConv_lowest_le s x.1 x.2.1 x.2.2)

/-- C2 counterexample: with the first warm-up call the fastest (1ns, all
later calls 5ns), `estimate_execution_time` returns 1 — the first call's
duration — while the minimum over the remaining nine calls is 5.  The first
call's duration does influence the returned estimate, refuting the claim at
this concrete input. -/
theorem estimate_uses_first_call_cex :
    estimate_execution_time dEx = 1 ∧ spec_warmup_min dEx = 5 ∧
      (1 : ℚ) ≠ 5 := by
  refine ⟨by decide, by decide, by decide⟩

/-- C2 (amended): the Warm-up Estimator invokes the callable exactly 10
times and returns the minimum duration over all ten calls, the first call
included (the `first_run` branch stores the first duration into `result`,
which then participates in every later `std::min`). -/
theorem estimate_is_min_of_all_ten (d : ℕ → ℚ) :
    estimate_execution_time d =
      min (d 9) (min (d 8) (min (d 7) (min (d 6) (min (d 5) (min (d 4)
        (min (d 3) (min (d 2) (min (d 1) (d 0))))))))) := rfl

/-- C3: the iteration planner realises exactly the five-bucket table with
strict upper bounds — `e < 100 ↦ (128000, 10000)`, `100 ≤ e < 1000 ↦
(64000, 5000)`, `1000 ≤ e < 1000000 ↦ (32000, 1000)`, `1000000 ≤ e <
1000000000 ↦ (4000, 100)`, `1000000000 ≤ e ↦ (1000, 10)` — and the boundary
estimate `e = 1000` falls in the third bucket `(32000, 1000)`. -/
theorem planner_bucket_table (e : ℚ) (he : 0 ≤ e) :
    (e < 100 → update_iterations e = ⟨128000, 10000⟩) ∧
    (100 ≤ e → e < 1000 → update_iterations e = ⟨64000, 5000⟩) ∧
    (1000 ≤ e → e < 1000000 → update_iterations e = ⟨32000, 1000⟩) ∧
    (1000000 ≤ e → e < 1000000000 → update_iterations e = ⟨4000, 100⟩) ∧
    (1000000000 ≤ e → update_iterations e = ⟨1000, 10⟩) ∧
    update_iterations 1000 = ⟨32000, 1000⟩ := by
  refine ⟨?_, ?_, ?_, ?_, ?_, by decide⟩
  · intro h
    rw [update_iterations, if_pos h]
  · intro h1 h2
    rw [update_iterations, if_neg (by linarith), if_pos h2]
  · intro h1 h2
    rw [update_iterations, if_neg (by linarith), if_neg (by linarith),
      if_pos h2]
  · intro h1 h2
    rw [update_iterations, if_neg (by linarith), if_neg (by linarith),
      if_neg (by linarith), if_pos h2]
  · intro h1
    rw [update_iterations, if_neg (by linarith), if_neg (by linarith),
      if_neg (by linarith), if_neg (by linarith)]

/-- Witness for C3 at the boundary estimate `e = 1000`. -/
theorem planner_bucket_table_witness :
    0 ≤ (1000 : ℚ) ∧
    (((1000 : ℚ) < 100 → update_iterations 1000 = ⟨128000, 10000⟩) ∧
     (100 ≤ (1000 : ℚ) → (1000 : ℚ) < 1000 →
       update_iterations 1000 = ⟨64000, 5000⟩) ∧
     (1000 ≤ (1000 : ℚ) → (1000 : ℚ) < 1000000 →
       update_iterations 1000 = ⟨32000, 1000⟩) ∧
     (1000000 ≤ (1000 : ℚ) → (1000 : ℚ) < 1000000000 →
       update_iterations 1000 = ⟨4000, 100⟩) ∧
     (1000000000 ≤ (1000 : ℚ) → update_iterations 1000 = ⟨1000, 10⟩) ∧
     update_iterations 1000 = ⟨32000, 1000⟩) :=
  ⟨by norm_num, planner_bucket_table 1000 (by norm_num)⟩

/-- C4: the convergence record's `lowest_rsd` never increases — in one step
and over any sequence of rounds — and a step replaces the stored best-round
record exactly when the round's RSD is strictly lower than the stored
`lowest_rsd`, so on a tie the record of the earlier round is retained
unchanged. -/
theorem conv_state_monotone (s : ConvState) (rsd m : ℚ) (iters : ℕ)
    (l : List (ℚ × ℚ × ℕ)) :
    (stepConv s rsd m iters).lowest_rsd ≤ s.lowest_rsd ∧
    stepConv s rsd m iters =
      (if rsd < s.lowest_rsd then ⟨rsd, iters, m⟩ else s) ∧
    (runConv s l).lowest_rsd ≤ s.lowest_rsd :=
  ⟨stepConv_lowest_le s rsd m iters, stepConv_eq s rsd m iters,
    runConv_lowest_le s l⟩

/-- The mean of `N` copies of `d` is `d` (for `N > 0`). -/
lemma mean_replicate (N : ℕ) (d : ℚ) (hN : 0 < N) :
    mean (List.replicate N d) = d := by
  have hNq : (N : ℚ) ≠ 0 := Nat.cast_ne_zero.2 hN.ne'
  rw [mean, List.sum_replicate, List.length_replicate, nsmul_eq_mul,
    mul_div_cancel_left₀ d hNq]

/-- C5: over exact arithmetic, a round sample of `N` identical positive
durations has mean equal to that duration, variance exactly 0 (the squared
deviations all vanish before the division by `N`), and relative standard
deviation exactly 0 (`sqrt 0 * 100 / mean = 0`). -/
theorem stats_identical_sample (N : ℕ) (d : ℚ) (hN : 0 < N) (hd : 0 < d) :
    mean (List.replicate N d) = d ∧
    variance (List.replicate N d) = 0 ∧
    relative_standard_deviation (List.replicate N d) = 0 := by
  have hm := mean_replicate N d hN
  have hv : variance (List.replicate N d) = 0 := by
    rw [variance, sqDevSum, List.map_replicate, hm, sub_self,
      zero_pow two_ne_zero, List.sum_replicate, smul_zero, zero_div]
  refine ⟨hm, hv, ?_⟩
  rw [relative_standard_deviation, standard_deviation, hv]
  rw [Rat.cast_zero, Real.sqrt_zero, zero_mul, zero_div]

/-- Witness for C5 with three copies of a 7ns duration. -/
theorem stats_identical_sample_witness :
    0 < 3 ∧ (0 : ℚ) < 7 ∧
    (mean (List.replicate 3 7) = 7 ∧
     variance (List.replicate 3 7) = 0 ∧
     relative_standard_deviation (List.replicate 3 7) = 0) :=
  ⟨by norm_num, by norm_num,
    stats_identical_sample 3 7 (by norm_num) (by norm_num)⟩

/-- C6 counterexample: on the sample `[0, 0]` the round mean is exactly 0
and the RSD computation takes the division-by-zero path — the instrumented
division reports `none`, i.e. the unguarded `standard_deviation * 100 /
mean` of line 142 divides by zero.  No explicit degenerate-case handling
exists in the code. -/
theorem rsd_zero_mean_cex : rsd_checked (List.replicate 2 0) = none := by
  have h : mean (List.replicate 2 0) = 0 := by
    norm_num [mean, List.sum_replicate]
  rw [rsd_checked, if_pos h]

/-- C6 (amended): whenever a round's mean is exactly 0, the RSD computation
of line 142 performs an unguarded division by zero (undefined — NaN/inf in
the C++ arithmetic); the code defines no explicit behaviour for this case. -/
theorem rsd_zero_mean_unguarded (ds : List ℚ) (h : mean ds = 0) :
    rsd_checked ds = none := by
  rw [rsd_checked, if_pos h]

/-- Witness for C6 (amended) on the sample `[0, 0, 0]`. -/
theorem rsd_zero_mean_unguarded_witness :
    rsd_checked (List.replicate 3 0) = none :=
  rsd_zero_mean_unguarded (List.replicate 3 0)
    (by norm_num [mean, List.sum_replicate])

/-- Every bucket's round budget is at most 10000. -/
lemma update_iterations_maxRuns_le (e : ℚ) :
    (update_iterations e).maxRuns ≤ 10000 := by
  rw [update_iterations]
  split_ifs <;> decide

/-- The loop's fuel never runs out: `num_runs` strictly increases while the
current round budget is at most 10000, so the loop yields an outcome
whenever `10001 ≤ fuel + num_runs` and `num_runs ≤ 10000`. -/
lemma loop_isSome (b : Behavior) :
    ∀ (f n : ℕ) (conv : ConvState) (meas : ℕ) (trace : List (ℕ × ℕ)),
    10001 ≤ f + n → n ≤ 10000 →
    (loop b f n conv meas trace).isSome = true := by
  intro f
  induction f with
  | zero => intro n conv meas trace h1 h2; omega
  | succ f ih =>
    intro n conv meas trace h1 h2
    cases hr : b.round n with
    | throws => simp [loop, hr]
    | ok m rsd =>
      simp only [loop, hr]
      by_cases hle : (update_iterations (b.est n)).maxRuns ≤ n
      · rw [if_pos hle]; rfl
      · rw [if_neg hle]
        have hb := update_iterations_maxRuns_le (b.est n)
        exact ih (n + 1) _ _ _ (by omega) (by omega)

/-- Inside the loop the cursor is left hidden exactly when the callable
throws (the only `some ⟨none, _⟩` exit), and shown again exactly on the
normal `break` exit. -/
lemma loop_cursor (b : Behavior) :
    ∀ (f n : ℕ) (conv : ConvState) (meas : ℕ) (trace : List (ℕ × ℕ))
      (o : Outcome),
    loop b f n conv meas trace = some o →
    (o.cursorHidden = true ↔ o.result = none) := by
  intro f
  induction f with
  | zero => intro n conv meas trace o h; simp [loop] at h
  | succ f ih =>
    intro n conv meas trace o h
    cases hr : b.round n with
    | throws =>
      simp only [loop, hr, Option.some.injEq] at h
      rw [← h]
      simp
    | ok m rsd =>
      simp only [loop, hr] at h
      by_cases hle : (update_iterations (b.est n)).maxRuns ≤ n
      · rw [if_pos hle] at h
        rw [Option.some.injEq] at h
        rw [← h]
        simp
      · rw [if_neg hle] at h
        exact ih (n + 1) _ _ _ o h

/-- C9: for every callable behaviour — any sequence of latency estimates
(hence any sequence of round budgets drawn from the bucket table) and any
round outcomes, throwing or not — the `benchmark` constructor terminates:
the fuelled sampling loop always yields an outcome within the fixed fuel,
because `num_runs` strictly increases each continuing round while every
possible `max_num_runs_` is at most 10000. -/
theorem sampling_loop_terminates (b : Behavior) :
    (benchmark_run b).isSome = true := by
  rw [benchmark_run]
  by_cases hb : b.initThrows
  · rw [if_pos hb]; rfl
  · rw [if_neg hb]
    exact loop_isSome b FUEL 0 initConv 0 [] (by norm_num [FUEL])
      (by norm_num)

/-- When the planner returns the same policy `P` every round and no call
throws, the loop exits with `num_runs = P.maxRuns` after having measured
`P.maxRuns + 1 - n` further rounds (starting from `num_runs = n`): the
`num_runs >= max_num_runs_` check runs after the round's measurement, and
`num_runs` is incremented only on the continue path. -/
lemma loop_const_policy (b : Behavior) (P : Policy)
    (hP : ∀ r, update_iterations (b.est r) = P)
    (hok : ∀ r, (b.round r).isOk = true) :
    ∀ (f n : ℕ) (conv : ConvState) (meas : ℕ) (trace : List (ℕ × ℕ)),
    n ≤ P.maxRuns → P.maxRuns + 2 ≤ f + n →
    ∃ res, loop b f n conv meas trace = some ⟨some res, false⟩ ∧
      res.num_runs = P.maxRuns ∧
      res.rounds_measured = meas + (P.maxRuns + 1 - n) := by
  intro f
  induction f with
  | zero => intro n conv meas trace h1 h2; omega
  | succ f ih =>
    intro n conv meas trace h1 h2
    cases hr : b.round n with
    | throws =>
      have := hok n
      rw [hr] at this
      exact absurd this (by decide)
    | ok m rsd =>
      have hPn := hP n
      by_cases hle : P.maxRuns ≤ n
      · have hn : n = P.maxRuns := le_antisymm h1 hle
        refine ⟨⟨n, P.iterations,
          (stepConv conv rsd m P.iterations).lowest_rsd,
          (stepConv conv rsd m P.iterations).mean_lowest_rsd,
          (stepConv conv rsd m P.iterations).num_iterations_lowest_rsd,
          meas + 1, trace ++ [(P.iterations, P.maxRuns)]⟩, ?_, hn, ?_⟩
        · simp only [loop, hr, hPn, if_pos hle]
        · simp only []
          omega
      · push_neg at hle
        obtain ⟨res, hres, hnum, hmeas⟩ :=
          ih (n + 1) (stepConv conv rsd m P.iterations) (meas + 1)
            (trace ++ [(P.iterations, P.maxRuns)]) hle (by omega)
        refine ⟨res, ?_, hnum, by omega⟩
        rw [← hres]
        simp only [loop, hr, hPn, if_neg (not_le.2 hle)]

/-- C1 counterexample: a callable whose estimate is constantly 2s (bucket
`(1000, 10)`, so `max_rounds = 10` every round) and whose rounds all
complete.  The constructor reports `num_runs = 10 = max_rounds`, but the
loop executed the measurement phase 11 times — `max_rounds + 1` rounds, not
`max_rounds`: the termination check `num_runs >= max_num_runs_` runs after
the round with `num_runs = 10` has already measured, while `num_runs` was
only incremented after each of the 10 earlier rounds. -/
theorem loop_round_count_cex :
    (runResult c1Behavior).map (fun r => (r.num_runs, r.rounds_measured)) =
      some (10, 11) ∧
    (update_iterations (2000000000 : ℚ)).maxRuns = 10 ∧
    (11 : ℕ) ≠ 10 := by
  refine ⟨by decide, by decide, by decide⟩

/-- C1 (amended): for a callable whose latency estimate stays in one bucket
(constant policy `P`) and which never throws, the loop measures exactly
`P.maxRuns + 1` rounds and reports `num_runs = P.maxRuns` — the reported
`num_runs` equals the round budget but undercounts the measured rounds by
one. -/
theorem loop_runs_budget_plus_one (b : Behavior) (P : Policy)
    (hinit : b.initThrows = false)
    (hP : ∀ r, update_iterations (b.est r) = P)
    (hok : ∀ r, (b.round r).isOk = true) :
    (runResult b).map (fun r => (r.num_runs, r.rounds_measured)) =
      some (P.maxRuns, P.maxRuns + 1) := by
  have hM : P.maxRuns ≤ 10000 := by
    have h := update_iterations_maxRuns_le (b.est 0)
    rw [hP 0] at h
    exact h
  obtain ⟨res, hres, hnum, hmeas⟩ :=
    loop_const_policy b P hP hok FUEL 0 initConv 0 []
      (Nat.zero_le _) (by rw [FUEL]; omega)
  have hrr : runResult b = some res := by
    rw [runResult, benchmark_run, hinit]
    simp [hres]
  rw [hrr, Option.map_some', hnum, hmeas]
  have h0 : 0 + (P.maxRuns + 1 - 0) = P.maxRuns + 1 := by omega
  rw [h0]

/-- The constant-2s callable is planned with the `(1000, 10)` bucket at
every round. -/
lemma c1_policy (r : ℕ) :
    update_iterations (c1Behavior.est r) = ⟨1000, 10⟩ := by
  show update_iterations 2000000000 = ⟨1000, 10⟩
  decide

/-- Witness for C1 (amended) at the constant-2s callable. -/
theorem loop_runs_budget_plus_one_witness :
    (runResult c1Behavior).map (fun r => (r.num_runs, r.rounds_measured)) =
      some (10, 11) :=
  loop_runs_budget_plus_one c1Behavior ⟨1000, 10⟩ rfl c1_policy
    (fun _ => rfl)

/-- C7 counterexample: a callable that throws during the first loop round —
after the cursor was hidden at line 108 — makes the constructor propagate
the exception with the console cursor still hidden (`cursorHidden = true`
after exit), because the `show_console_cursor(true)` call at line 174 is not
reached and no scope guard exists.  This refutes "the cursor is never left
hidden after the benchmark constructor exits". -/
theorem cursor_left_hidden_cex :
    benchmark_run c7Behavior = some ⟨none, true⟩ := by decide

/-- C7 (amended): the cursor is hidden before the sampling loop and shown
again on the normal-completion path only.  At constructor exit the cursor is
left hidden exactly when the callable threw after the cursor was hidden
(i.e. the pre-loop warm-up did not throw but a loop round did); a pre-loop
throw exits with the cursor never hidden, and normal completion restores
it. -/
theorem cursor_restored_iff_no_loop_throw (b : Behavior) (o : Outcome)
    (ho : benchmark_run b = some o) :
    (o.cursorHidden = true ↔ (b.initThrows = false ∧ o.result = none)) := by
  rw [benchmark_run] at ho
  by_cases hb : b.initThrows
  · rw [if_pos hb] at ho
    rw [Option.some.injEq] at ho
    rw [← ho]
    simp [hb]
  · rw [if_neg hb] at ho
    have h := loop_cursor b FUEL 0 initConv 0 [] o ho
    rw [Bool.not_eq_true] at hb
    simp [h, hb]

/-- Witness for C7 (amended): the throwing callable exits with the cursor
hidden, and the equivalence instantiates accordingly. -/
theorem cursor_restored_iff_no_loop_throw_witness :
    ((Outcome.mk none true).cursorHidden = true ↔
      (c7Behavior.initThrows = false ∧
        (Outcome.mk none true).result = none)) :=
  cursor_restored_iff_no_loop_throw c7Behavior ⟨none, true⟩ (by decide)

/-- A completed run of the constructor (no exception) comes from the loop
exiting on its `break` path: the loop outcome holds the same record and the
cursor was shown again. -/
lemma runResult_loop (b : Behavior) (hinit : b.initThrows = false)
    (res : BenchResult) (hres : runResult b = some res) :
    loop b FUEL 0 initConv 0 [] = some ⟨some res, false⟩ := by
  rw [runResult, benchmark_run, hinit] at hres
  simp only [Bool.false_eq_true, if_false] at hres
  obtain ⟨o, ho, hor⟩ := Option.bind_eq_some.1 hres
  obtain ⟨r, c⟩ := o
  dsimp only at hor
  subst hor
  have hcur := loop_cursor b FUEL 0 initConv 0 [] ⟨some res, c⟩ ho
  cases c with
  | true => simp at hcur
  | false => exact ho

/-- Each loop iteration, from `num_runs = n` up to the final `num_runs =
res.num_runs`, appends the `(num_iterations_, max_num_runs_)` pair of its
own `update_iterations` call — driven by that round's fresh warm-up
estimate — to the policy trace. -/
lemma loop_policy_trace (b : Behavior) :
    ∀ (f n : ℕ) (conv : ConvState) (meas : ℕ) (trace : List (ℕ × ℕ))
      (res : BenchResult),
    loop b f n conv meas trace = some ⟨some res, false⟩ →
    n ≤ res.num_runs ∧
    res.rounds_measured = meas + (res.num_runs + 1 - n) ∧
    res.policyTrace = trace ++ (List.range' n (res.num_runs + 1 - n)).map
      (fun r => ((update_iterations (b.est r)).iterations,
        (update_iterations (b.est r)).maxRuns)) := by
  intro f
  induction f with
  | zero => intro n conv meas trace res h; simp [loop] at h
  | succ f ih =>
    intro n conv meas trace res h
    cases hr : b.round n with
    | throws => simp [loop, hr] at h
    | ok m rsd =>
      simp only [loop, hr] at h
      by_cases hle : (update_iterations (b.est n)).maxRuns ≤ n
      · rw [if_pos hle] at h
        rw [Option.some.injEq, Outcome.mk.injEq] at h
        replace h := h.1
        rw [Option.some.injEq] at h
        subst h
        refine ⟨le_rfl, ?_, ?_⟩
        · dsimp only
          omega
        · dsimp only
          have h1 : n + 1 - n = 1 := by omega
          rw [h1, List.range'_one, List.map_singleton]
      · rw [if_neg hle] at h
        obtain ⟨h1, h2, h3⟩ := ih (n + 1) _ (meas + 1)
          (trace ++ [((update_iterations (b.est n)).iterations,
            (update_iterations (b.est n)).maxRuns)]) res h
        refine ⟨by omega, by omega, ?_⟩
        have hk : res.num_runs + 1 - n =
            (res.num_runs + 1 - (n + 1)) + 1 := by omega
        rw [h3, hk, List.range'_succ, List.map_cons, List.append_assoc,
          List.singleton_append]

/-- C8: in every completed execution, the loop measured `num_runs + 1`
rounds and the `r`-th measurement round (for every `r`) ran under the policy
`update_iterations (est r)` computed from that round's own fresh warm-up
estimate — the planner (and with it the estimator) is re-invoked before
every round, so both `iterations_per_round` and `max_rounds` follow the
current round's estimate and can change between consecutive rounds. -/
theorem planner_reinvoked_every_round (b : Behavior)
    (hinit : b.initThrows = false) (res : BenchResult)
    (hres : runResult b = some res) :
    res.rounds_measured = res.num_runs + 1 ∧
    res.policyTrace = (List.range res.rounds_measured).map
      (fun r => ((update_iterations (b.est r)).iterations,
        (update_iterations (b.est r)).maxRuns)) := by
  have ho := runResult_loop b hinit res hres
  obtain ⟨h1, h2, h3⟩ := loop_policy_trace b FUEL 0 initConv 0 [] res ho
  have hm : res.rounds_measured = res.num_runs + 1 := by omega
  refine ⟨hm, ?_⟩
  rw [h3, hm, List.range_eq_range', List.nil_append]
  have h0 : res.num_runs + 1 - 0 = res.num_runs + 1 := by omega
  rw [h0]

/-- The final record of the bucket-changing callable `c8Behavior`: round 0
is planned with `(128000, 10000)` and every later round with `(1000, 10)`;
the run stops with `num_runs = 10` after 11 measured rounds. -/
def c8Res : BenchResult :=
  ⟨10, 1000, 0, 5, 128000, 11,
    (128000, 10000) :: List.replicate 10 (1000, 10)⟩

set_option maxRecDepth 8192 in
/-- Witness for C8 at a callable whose estimate leaves its bucket after
round 0: the policy trace records a different `(iterations, max_rounds)`
pair — both components changed — for rounds 0 and 1. -/
theorem planner_reinvoked_every_round_witness :
    c8Res.rounds_measured = c8Res.num_runs + 1 ∧
    c8Res.policyTrace = (List.range c8Res.rounds_measured).map
      (fun r => ((update_iterations (c8Behavior.est r)).iterations,
        (update_iterations (c8Behavior.est r)).maxRuns)) :=
  planner_reinvoked_every_round c8Behavior rfl c8Res (by decide)

/-- If every completed round's RSD is at least the 100% sentinel, the
convergence record is never written: the loop keeps `⟨100, 0, 0⟩`
unchanged round after round. -/
lemma loop_sentinel (b : Behavior)
    (hrsd : ∀ r m s, b.round r = .ok m s → 100 ≤ s) :
    ∀ (f n meas : ℕ) (trace : List (ℕ × ℕ)) (res : BenchResult),
    loop b f n initConv meas trace = some ⟨some res, false⟩ →
    res.lowest_rsd = 100 ∧ res.mean_lowest_rsd = 0 ∧
    res.num_iterations_lowest_rsd = 0 ∧ meas < res.rounds_measured := by
  intro f
  induction f with
  | zero => intro n meas trace res h; simp [loop] at h
  | succ f ih =>
    intro n meas trace res h
    cases hr : b.round n with
    | throws => simp [loop, hr] at h
    | ok m rsd =>
      have h100 := hrsd n m rsd hr
      have hstep : stepConv initConv rsd m
          (update_iterations (b.est n)).iterations = initConv := by
        rw [stepConv_eq, if_neg]
        exact not_lt.2 h100
      simp only [loop, hr] at h
      rw [hstep] at h
      by_cases hle : (update_iterations (b.est n)).maxRuns ≤ n
      · rw [if_pos hle] at h
        rw [Option.some.injEq, Outcome.mk.injEq] at h
        replace h := h.1
        rw [Option.some.injEq] at h
        subst h
        exact ⟨rfl, rfl, rfl, by dsimp only; omega⟩
      · rw [if_neg hle] at h
        obtain ⟨ha, hb, hc, hd⟩ := ih (n + 1) (meas + 1) _ res h
        exact ⟨ha, hb, hc, by omega⟩

/-- C10: if no round's RSD beats the 100% initialisation sentinel, the
best-round record keeps its initial values: the completed run reports
`mean_lowest_rsd = 0` and `num_iterations_lowest_rsd = 0` (and
`lowest_rsd = 100`), even though at least one measurement round was
executed. -/
theorem sentinel_record_when_no_convergence (b : Behavior)
    (hinit : b.initThrows = false)
    (hrsd : ∀ r m s, b.round r = .ok m s → 100 ≤ s)
    (res : BenchResult) (hres : runResult b = some res) :
    res.mean_lowest_rsd = 0 ∧ res.num_iterations_lowest_rsd = 0 ∧
    res.lowest_rsd = 100 ∧ 0 < res.rounds_measured := by
  have ho := runResult_loop b hinit res hres
  obtain ⟨ha, hb, hc, hd⟩ := loop_sentinel b hrsd FUEL 0 0 [] res ho
  exact ⟨hb, hc, ha, hd⟩

/-- The final record of the never-converging callable `c10Behavior`: all 11
rounds have RSD 150%, so the record keeps the sentinel values. -/
def c10Res : BenchResult :=
  ⟨10, 1000, 100, 0, 0, 11, List.replicate 11 (1000, 10)⟩

set_option maxRecDepth 8192 in
/-- Witness for C10 at a callable whose every round has RSD 150%. -/
theorem sentinel_record_when_no_convergence_witness :
    c10Res.mean_lowest_rsd = 0 ∧ c10Res.num_iterations_lowest_rsd = 0 ∧
    c10Res.lowest_rsd = 100 ∧ 0 < c10Res.rounds_measured :=
  sentinel_record_when_no_convergence c10Behavior rfl
    (fun r m s h => by
      injection h with h1 h2
      rw [← h2]
      norm_num) c10Res (by decide)

end Criterion
